import Mathlib

/-!
Formal model of the `configmap-aggregator` repository.

The repository aggregates the key/value data of many Kubernetes config maps
into one destination: either a flat file tree (`aggregator.go`, `Once`) or a
single named config map (`main.go` / the sync variant, `createConfigMap` and
`upsertConfigMap`).

Modelling conventions:
* Go `map[string]string` values are association lists `List (String × String)`;
  the list order stands for one possible (nondeterministic) iteration order of
  the Go map, and the map invariant of key uniqueness is carried as a `Nodup`
  hypothesis where a statement needs it.  Go `data[k] = v` is `mapInsert`.
* The afero file system is a finite map from normalized absolute paths to file
  contents plus a set of directory paths.  afero's `MemMapFs` resolves the
  relative paths this program produces against the root, so `normPath` turns a
  relative path `p` into `"/" ++ p` (and `"."` into `"/"`).  `filepath.Join`
  is modelled by `goJoin` for the path shapes the program builds: the default
  directory `"."` and clean absolute directories.  Directory-listing failures
  and permission errors of the underlying store are not modelled; `Remove` of
  a missing path fails, as it does on every afero backend.
* The HTTP client, the Kubernetes client and the option-set logger are
  external collaborators; they enter as oracle values (`SinkResp`,
  `GetResult`, lister functions) and call logs.
* `github.com/pkg/errors`: `Wrap`/`Wrapf` return nil when the wrapped error is
  nil; errors are modelled as their message strings, wrapping as
  `msg ++ ": " ++ cause` (`wrapErr`, `wrapOpt`).
-/

/-- One possible iteration order of a Go `map[string]string` lookup:
first match wins (keys are unique in an actual Go map). -/
def mapLookup (m : List (String × String)) (k : String) : Option String :=
  match m with
  | [] => none
  | (k', v) :: rest => if k' = k then some v else mapLookup rest k

/-- Go map assignment `m[k] = v`: replace the binding in place if the key is
present, otherwise add it. -/
def mapInsert (m : List (String × String)) (k v : String) : List (String × String) :=
  match m with
  | [] => [(k, v)]
  | (k', v') :: rest => if k' = k then (k, v) :: rest else (k', v') :: mapInsert rest k v

/-- Go `delete(m, k)`: drop the binding of `k` (first occurrence). -/
def mapErase (m : List (String × String)) (k : String) : List (String × String) :=
  match m with
  | [] => []
  | (k', v) :: rest => if k' = k then rest else (k', v) :: mapErase rest k

/-- The keys of a Go map are pairwise distinct. -/
def keysNodup (m : List (String × String)) : Prop := (m.map Prod.fst).Nodup

instance (m : List (String × String)) : Decidable (keysNodup m) := by
  unfold keysNodup; infer_instance

/-- `github.com/pkg/errors` `Wrapf` on a non-nil error: message, colon, cause. -/
def wrapErr (msg cause : String) : String := msg ++ ": " ++ cause

/-- `github.com/pkg/errors` `Wrapf` on a possibly-nil error: wrapping `nil`
yields `nil`. -/
def wrapOpt (cause : Option String) (msg : String) : Option String :=
  match cause with
  | none => none
  | some c => some (wrapErr msg c)

/-- A source config map as consumed by both destinations: identity
(`Namespace`, `Name` of its `ObjectMeta`) plus its `Data` mapping. -/
structure CMItem where
  ns : String
  name : String
  data : List (String × String)
deriving DecidableEq

/-! ## File-system model (afero, `MemMapFs` semantics) -/

/-- Normalize a path the way afero's in-memory backend resolves the paths this
program produces: relative paths are rooted at `/`, `"."` is the root. -/
def normPath (p : String) : String :=
  if p = "." then "/"
  else
    match p.data with
    | '/' :: _ => p
    | _ => "/" ++ p

/-- `filepath.Join dir name` for the directory shapes the program uses:
joining onto `"."` cleans to the bare name, otherwise the separator is
inserted. -/
def goJoin (dir name : String) : String :=
  if dir = "." then name else dir ++ "/" ++ name

/-- The base name of a normalized path: the characters after the last `/`. -/
def baseName (p : String) : String :=
  String.mk ((p.data.reverse.takeWhile (fun c => c ≠ '/')).reverse)

/-- The parent directory of a normalized path: the characters before the last
`/`, or the root. -/
def parentDir (p : String) : String :=
  let rest := (p.data.reverse.dropWhile (fun c => c ≠ '/')).drop 1
  if rest.isEmpty then "/" else String.mk rest.reverse

/-- The file system: regular files (normalized absolute path to contents) and
directories.  Directories only matter to `ReadDir`, which the program uses to
list the output directory; entries that are directories are skipped by `Once`
(`f.IsDir()`), so only the file map drives the model. -/
structure FS where
  files : List (String × String)
  dirs : List String
deriving DecidableEq

/-- `afero.ReadFile`. -/
def readFile (fs : FS) (p : String) : Option String := mapLookup fs.files (normPath p)

/-- `afero.WriteFile` (create or overwrite; never fails in the model). -/
def writeFile (fs : FS) (p v : String) : FS :=
  { fs with files := mapInsert fs.files (normPath p) v }

/-- `fs.Remove`: fails (returns `none`) when the path does not exist. -/
def removeFile (fs : FS) (p : String) : Option FS :=
  match mapLookup fs.files (normPath p) with
  | some _ => some { fs with files := mapErase fs.files (normPath p) }
  | none => none

/-- `afero.ReadDir` restricted to what `Once` keeps: the `Name()` (base name)
of every regular file directly under `dir`; sub-directory entries are skipped
by the caller. -/
def readDirFileNames (fs : FS) (dir : String) : List String :=
  (fs.files.filter (fun kv => parentDir kv.1 = normPath dir)).map (fun kv => baseName kv.1)

/-! ## `Aggregator.Once` (aggregator.go) -/

/-- The lister interface: `List(namespace, selector)`. -/
def ListerFun := String → String → Except String (List CMItem)

/-- The `Aggregator` configuration fields `Once` reads.  The logger only emits
debug output, the `fs` is the explicit `FS` argument of the model, and
`dryRun` is never read by the source. -/
structure AggConfig where
  namespaces : List String
  selector : String
  webhook : String
  webhookMethod : String
  outputDir : String

/-- One outbound webhook request: method, URL, body (`nil` body in the
source). -/
structure HttpCall where
  method : String
  url : String
  body : Option String
deriving DecidableEq

/-- Behaviour of the notification sink for the cycle: the transport either
fails with an error, or delivers a status code. -/
inductive SinkResp where
  | transportError (msg : String)
  | status (code : Nat)
deriving DecidableEq

/-- The mutable state threaded through `Once`: the file system, the
`existingFiles` tracking set, the `changed` flag, the namespaces queried so
far, and the pending error (`none` while no early return fired). -/
structure SyncState where
  fs : FS
  existing : List String
  changed : Bool
  listed : List String
  err : Option String
deriving DecidableEq

/-- The inner `DATA` loop of `Once`: one config map's `Data` entries.  The
file name joins the output directory onto `namespace_name_key`; the
`existingFiles` set holds bare base names, so the membership test compares the
joined path against base names. -/
def stepData (outDir iNs iName : String) (entries : List (String × String))
    (s : SyncState) : SyncState :=
  match entries with
  | [] => s
  | (key, v) :: rest =>
    let name := goJoin outDir (iNs ++ "_" ++ iName ++ "_" ++ key)
    if name ∈ s.existing then
      let s1 := { s with existing := s.existing.erase name }
      match readFile s1.fs name with
      | none => { s1 with err := some (wrapErr ("failed to read file " ++ name) "read error") }
      | some contents =>
        if contents = v then
          stepData outDir iNs iName rest s1
        else
          stepData outDir iNs iName rest
            { s1 with fs := writeFile s1.fs name v, changed := true }
    else
      stepData outDir iNs iName rest
        { s with fs := writeFile s.fs name v, changed := true }

/-- The loop over `list.Items`. -/
def stepItems (outDir : String) (items : List CMItem) (s : SyncState) : SyncState :=
  match items with
  | [] => s
  | it :: rest =>
    let s' := stepData outDir it.ns it.name it.data s
    match s'.err with
    | some _ => s'
    | none => stepItems outDir rest s'

/-- The loop over `a.namespaces`.  The error wrap in the source formats the
namespace placeholder with the literal empty string, not `n`. -/
def stepNamespaces (a : AggConfig) (lister : ListerFun) (nss : List String)
    (s : SyncState) : SyncState :=
  match nss with
  | [] => s
  | n :: rest =>
    let s0 := { s with listed := s.listed ++ [n] }
    match lister n a.selector with
    | .error e =>
      { s0 with err := some (wrapErr ("failed to list config maps for namespace " ++ "") e) }
    | .ok items =>
      let s' := stepItems a.outputDir items s0
      match s'.err with
      | some _ => s'
      | none => stepNamespaces a lister rest s'

/-- The cleanup loop of `Once`: every name left in `existingFiles` is removed;
`changed` is set after each successful removal, and the first failure returns
early. -/
def deleteLoop (names : List String) (fs : FS) (changed : Bool) :
    FS × Bool × Option String :=
  match names with
  | [] => (fs, changed, none)
  | k :: rest =>
    match removeFile fs k with
    | none => (fs, changed, some (wrapErr ("failed to remove file " ++ k) "remove error"))
    | some fs' => deleteLoop rest fs' true

/-- Everything `Once` does before the webhook step: list the output directory
(keeping base names of regular files), walk the namespaces, then delete the
unclaimed leftovers. -/
def syncPhase (a : AggConfig) (lister : ListerFun) (fs0 : FS) : SyncState :=
  let existing := readDirFileNames fs0 a.outputDir
  let s := stepNamespaces a lister a.namespaces
    { fs := fs0, existing := existing, changed := false, listed := [], err := none }
  match s.err with
  | some _ => s
  | none =>
    match deleteLoop s.existing s.fs s.changed with
    | (fs2, ch2, err2) => { s with fs := fs2, changed := ch2, err := err2 }

/-- The observable outcome of one `Once` call: the final file system, the
`changed` flag, the webhook calls issued, the namespaces queried, and the
returned error. -/
structure OnceResult where
  fs : FS
  changed : Bool
  calls : List HttpCall
  listed : List String
  err : Option String
deriving DecidableEq

/-- `Aggregator.Once`: sync phase, then, when something changed and a webhook
is configured, one request with the configured method and a nil body.  A
transport failure is wrapped into an error; a status of 400 or more reaches
`errors.Wrapf` with the nil transport error as its cause, and so produces a
nil return value. -/
def Once (a : AggConfig) (lister : ListerFun) (sink : SinkResp) (fs0 : FS) : OnceResult :=
  let s := syncPhase a lister fs0
  match s.err with
  | some e => ⟨s.fs, s.changed, [], s.listed, some e⟩
  | none =>
    if s.changed ∧ a.webhook ≠ "" then
      let call : HttpCall := ⟨a.webhookMethod, a.webhook, none⟩
      match sink with
      | .transportError m =>
        ⟨s.fs, s.changed, [call], s.listed, some (wrapErr "webhook request failed" m)⟩
      | .status code =>
        if code ≥ 400 then
          ⟨s.fs, s.changed, [call], s.listed,
            wrapOpt none ("webhook request receive unexpected status " ++ toString code)⟩
        else
          ⟨s.fs, s.changed, [call], s.listed, none⟩
    else
      ⟨s.fs, s.changed, [], s.listed, none⟩

/-! ## File-tree cycle theorems -/

/-- C1: the claim asserts that running `Once` twice with an unchanged source
and untouched destination yields `changed = false` and no error on the second
run, for every configured output directory.  With output directory `/tmp`
(one source collection, initially empty destination) the first run succeeds,
but the second run sets `changed = true` again (it re-writes the file because
the tracking set holds base names while the membership probe uses joined
paths) and then fails trying to remove the base name resolved against the
root.  The code contradicts the spec's idempotence property. -/
theorem once_second_run_not_idempotent_outputDir :
    (Once ⟨[""], "", "", "POST", "/tmp"⟩
        (fun _ _ => .ok [⟨"default", "item1", [("foo", "1")]⟩]) (.status 200)
        ⟨[], ["/tmp"]⟩).err = none ∧
    (Once ⟨[""], "", "", "POST", "/tmp"⟩
        (fun _ _ => .ok [⟨"default", "item1", [("foo", "1")]⟩]) (.status 200)
        ⟨[], ["/tmp"]⟩).fs = ⟨[("/tmp/default_item1_foo", "1")], ["/tmp"]⟩ ∧
    (Once ⟨[""], "", "", "POST", "/tmp"⟩
        (fun _ _ => .ok [⟨"default", "item1", [("foo", "1")]⟩]) (.status 200)
        ⟨[("/tmp/default_item1_foo", "1")], ["/tmp"]⟩).changed = true ∧
    (Once ⟨[""], "", "", "POST", "/tmp"⟩
        (fun _ _ => .ok [⟨"default", "item1", [("foo", "1")]⟩]) (.status 200)
        ⟨[("/tmp/default_item1_foo", "1")], ["/tmp"]⟩).err =
      some "failed to remove file default_item1_foo: remove error" := by
  refine ⟨by decide, by decide, by decide, by decide⟩

/-- C2: the claim asserts that after one successful cycle the regular files
directly under the output directory are exactly the aggregate keys,
irrespective of the pre-existing destination state.  With output directory
`/tmp`, a pre-existing extra file `/tmp/extra`, and an unrelated root file
`/extra`, the cycle succeeds but leaves `/tmp/extra` in place (the cleanup
resolves the bare base name `extra` against the root and deletes the
unrelated `/extra` instead), so the final file set under `/tmp` is
`{extra, default_item1_foo}`, not the aggregate-key set. -/
theorem once_tree_not_correct_outputDir :
    (Once ⟨[""], "", "", "POST", "/tmp"⟩
        (fun _ _ => .ok [⟨"default", "item1", [("foo", "1")]⟩]) (.status 200)
        ⟨[("/tmp/extra", "x"), ("/extra", "y")], ["/tmp"]⟩).err = none ∧
    (Once ⟨[""], "", "", "POST", "/tmp"⟩
        (fun _ _ => .ok [⟨"default", "item1", [("foo", "1")]⟩]) (.status 200)
        ⟨[("/tmp/extra", "x"), ("/extra", "y")], ["/tmp"]⟩).fs =
      ⟨[("/tmp/extra", "x"), ("/tmp/default_item1_foo", "1")], ["/tmp"]⟩ ∧
    readDirFileNames
      (Once ⟨[""], "", "", "POST", "/tmp"⟩
        (fun _ _ => .ok [⟨"default", "item1", [("foo", "1")]⟩]) (.status 200)
        ⟨[("/tmp/extra", "x"), ("/extra", "y")], ["/tmp"]⟩).fs "/tmp" =
      ["extra", "default_item1_foo"] := by
  refine ⟨by decide, by decide, by decide⟩

/-- C4: the claim asserts that a sink status of 400 or more makes the cycle
return a non-nil error.  With one changed file, a configured webhook and a
sink answering 500, the call is issued but `Once` returns no error: the
source wraps the nil transport error, and wrapping nil yields nil.  The
applied mutation is kept (second conjunct), as the claim also states. -/
theorem once_webhook_status_error_swallowed :
    (Once ⟨[""], "", "http://hook", "POST", "."⟩
        (fun _ _ => .ok [⟨"default", "item1", [("foo", "1")]⟩]) (.status 500)
        ⟨[], []⟩).err = none ∧
    (Once ⟨[""], "", "http://hook", "POST", "."⟩
        (fun _ _ => .ok [⟨"default", "item1", [("foo", "1")]⟩]) (.status 500)
        ⟨[], []⟩).fs.files = [("/default_item1_foo", "1")] ∧
    (Once ⟨[""], "", "http://hook", "POST", "."⟩
        (fun _ _ => .ok [⟨"default", "item1", [("foo", "1")]⟩]) (.status 500)
        ⟨[], []⟩).calls = [⟨"POST", "http://hook", none⟩] ∧
    (Once ⟨[""], "", "http://hook", "POST", "."⟩
        (fun _ _ => .ok [⟨"default", "item1", [("foo", "1")]⟩]) (.status 500)
        ⟨[], []⟩).changed = true := by
  refine ⟨by decide, by decide, by decide, by decide⟩

/-- C5: the claim asserts that a failing partition query aborts the cycle
with an error carrying that partition's identifier, and that later
partitions are not queried.  With partitions `alpha, beta` and a lister that
fails on `alpha` with `boom`, the file-tree cycle does abort before querying
`beta` (only `alpha` is listed), but the error message is
`failed to list config maps for namespace : boom` — the identifier slot is
formatted with the literal empty string instead of the partition name. -/
theorem once_list_error_drops_partition_identifier :
    (Once ⟨["alpha", "beta"], "", "", "POST", "."⟩
        (fun n _ => if n = "alpha" then .error "boom" else .ok []) (.status 200)
        ⟨[], []⟩).err = some "failed to list config maps for namespace : boom" ∧
    (Once ⟨["alpha", "beta"], "", "", "POST", "."⟩
        (fun n _ => if n = "alpha" then .error "boom" else .ok []) (.status 200)
        ⟨[], []⟩).listed = ["alpha"] ∧
    (Once ⟨["alpha", "beta"], "", "", "POST", "."⟩
        (fun n _ => if n = "alpha" then .error "boom" else .ok []) (.status 200)
        ⟨[], []⟩).fs = ⟨[], []⟩ := by
  refine ⟨by decide, by decide, by decide⟩

/-- C6: the notification characterization.  In every cycle, the `changed`
flag of the outcome is the sync phase's flag, and the webhook call list is
exactly one request — with the configured method, the configured URL, and a
nil body — precisely when the sync phase succeeded, something changed, and a
webhook destination is configured; otherwise no call is made. -/
theorem once_notification_iff_changed (a : AggConfig) (lister : ListerFun)
    (sink : SinkResp) (fs0 : FS) :
    (Once a lister sink fs0).changed = (syncPhase a lister fs0).changed ∧
    (Once a lister sink fs0).calls =
      (if (syncPhase a lister fs0).err = none ∧
          (syncPhase a lister fs0).changed = true ∧ a.webhook ≠ ""
       then [⟨a.webhookMethod, a.webhook, none⟩] else []) := by
  unfold Once
  cases hserr : (syncPhase a lister fs0).err with
  | some e => simp [hserr]
  | none =>
    by_cases hc : (syncPhase a lister fs0).changed = true ∧ a.webhook ≠ ""
    · cases sink with
      | transportError m => simp [hserr, hc]
      | status code =>
        by_cases hcode : code ≥ 400
        · simp [hserr, hc, hcode, wrapOpt]
        · simp [hserr, hc, hcode]
    · simp [hserr, hc]

/-! ## Resource-mode destination (package main, sync variant)

The content hash of the source renders the `Data` map with the `spew` debug
printer configured with `SortKeys = true` and digests the rendering with
64-bit FNV-1 in hex; both steps live in external libraries.  The model keeps
the canonical key-sorted entry list itself as the digest: two digests are
equal exactly when the canonical sorted serializations are equal.  The FNV
step only collapses distinct serializations on 64-bit hash collisions, which
the model (like the program) treats as absent. -/

/-- `ObjectMeta` of a destination config map resource. -/
structure CMMetadata where
  name : String
  ns : String
  labels : List (String × String)
  annotations : List (String × String)
  resourceVersion : String
deriving DecidableEq

/-- A config map resource as the resource-mode code manipulates it. -/
structure ConfigMap where
  metadata : CMMetadata
  data : List (String × String)
deriving DecidableEq

/-- Order on data entries used by the sorted serialization: by key, with the
value as tie breaker (keys of an actual Go map are distinct, so the tie
breaker never decides between two entries of one map). -/
def entryLe (p q : String × String) : Prop :=
  p.1 < q.1 ∨ (p.1 = q.1 ∧ p.2 ≤ q.2)

instance : DecidableRel entryLe := fun p q => by
  unfold entryLe; infer_instance

/-- The canonical (key-sorted) form of a data mapping: what the sorted
serialization exposes of the map. -/
def canonicalData (d : List (String × String)) : List (String × String) :=
  List.insertionSort entryLe d

/-- `hashConfigMap`: only the `Data` mapping is hashed, through the sorted
serialization (see the section comment). -/
def hashConfigMap (cm : ConfigMap) : List (String × String) :=
  canonicalData cm.data

/-- `compareConfigMaps`: true when the two resources hash alike. -/
def compareConfigMaps (a b : ConfigMap) : Bool :=
  decide (hashConfigMap a = hashConfigMap b)

/-- Modelled from the spec: `newConfigMap` is defined in the Kubernetes
client file, which is not among the sources; per the spec the candidate is
built fresh with the destination's identity stamped, so the model gives it
empty data, labels and annotations and no version token. -/
def newConfigMap (ns name : String) : ConfigMap :=
  { metadata := { name := name, ns := ns, labels := [], annotations := [],
                  resourceVersion := "" },
    data := [] }

/-- The controller configuration consumed by the resource-mode cycle. -/
structure Controller where
  targetNamespace : String
  targetName : String
  selector : String
  namespaces : List String

/-- The composite key `{namespace}_{name}_{key}` of one source triple. -/
def aggregateKey (ns name key : String) : String :=
  ns ++ "_" ++ name ++ "_" ++ key

/-- The inner loop over one source collection's data: each entry is written
into the aggregate under its composite key (plain Go map assignment: a later
triple that maps to an occupied key silently overwrites it). -/
def foldEntries (ns name : String) (data : List (String × String))
    (entries : List (String × String)) : List (String × String) :=
  match entries with
  | [] => data
  | (k, v) :: rest => foldEntries ns name (mapInsert data (aggregateKey ns name k) v) rest

/-- The `ITEMS` loop: a collection whose identity equals the target identity
is skipped, every other collection's entries are folded in. -/
def foldItems (tns tname : String) (data : List (String × String))
    (items : List CMItem) : List (String × String) :=
  match items with
  | [] => data
  | cm :: rest =>
    if cm.ns = tns ∧ cm.name = tname then foldItems tns tname data rest
    else foldItems tns tname (foldEntries cm.ns cm.name data cm.data) rest

/-- The namespace loop of `createConfigMap`: query each namespace in order,
fail fast on a query error (wrapping namespace and selector into the
message), and fold the returned collections into the aggregate. -/
def buildData (c : Controller) (get : ListerFun) (nss : List String)
    (data : List (String × String)) : Except String (List (String × String)) :=
  match nss with
  | [] => .ok data
  | n :: rest =>
    match get n c.selector with
    | .error e =>
      .error (wrapErr ("failed to get config maps for " ++ n ++ " " ++ c.selector) e)
    | .ok items => buildData c get rest (foldItems c.targetNamespace c.targetName data items)

/-- `createConfigMap`: aggregate all namespaces, then build the candidate
resource and stamp the ownership marker annotation. -/
def createConfigMap (c : Controller) (get : ListerFun) : Except String ConfigMap :=
  match buildData c get c.namespaces [] with
  | .error e => .error e
  | .ok data =>
    let cm := newConfigMap c.targetNamespace c.targetName
    let cm := { cm with data := data }
    let cm := { cm with metadata :=
      { cm.metadata with
        annotations := mapInsert cm.metadata.annotations "configmap-aggregator" "target" } }
    .ok cm

/-- Result of fetching the destination resource: the `ErrNotExist` sentinel,
another fetch error, or the resource. -/
inductive GetResult where
  | notExist
  | fetchError (msg : String)
  | found (cm : ConfigMap)

/-- A mutation issued against the destination store. -/
inductive ClientCall where
  | create (cm : ConfigMap)
  | update (cm : ConfigMap)
deriving DecidableEq

/-- The metadata merge of `upsertConfigMap`: every label and annotation of
the existing resource is copied onto the candidate (overwriting same-named
candidate keys), and the existing version token is copied verbatim. -/
def mergeFromExisting (existing cm : ConfigMap) : ConfigMap :=
  let anns := existing.metadata.annotations.foldl
    (fun m kv => mapInsert m kv.1 kv.2) cm.metadata.annotations
  let labs := existing.metadata.labels.foldl
    (fun m kv => mapInsert m kv.1 kv.2) cm.metadata.labels
  { cm with metadata :=
    { cm.metadata with
      annotations := anns, labels := labs,
      resourceVersion := existing.metadata.resourceVersion } }

/-- `upsertConfigMap` (the variant with the content comparison): on the
not-exist sentinel create the candidate as passed; on another fetch error
fail; otherwise merge the existing metadata onto the candidate and update
only when the content hashes differ. -/
def upsertConfigMap (get : GetResult) (tns tname : String) (cm : ConfigMap) :
    List ClientCall × Option String :=
  match get with
  | .notExist => ([.create cm], none)
  | .fetchError e =>
    ([], some (wrapErr ("failed to get config map " ++ tns ++ "/" ++ tname) e))
  | .found existing =>
    let cm' := mergeFromExisting existing cm
    if compareConfigMaps existing cm' then ([], none)
    else ([.update cm'], none)

/-! ## `New` and the options functions (aggregator.go) -/

/-- The `Aggregator` under construction: the fields `New` touches.  The
logger and the file system are external collaborators, kept as presence
flags. -/
structure Aggregator where
  namespaces : List String
  selector : String
  lister : Option ListerFun
  webhook : String
  webhookMethod : String
  outputDir : String
  hasLogger : Bool
  hasFs : Bool

/-- An options function mutates the aggregator or fails. -/
def OptionsFunc := Aggregator → Except String Aggregator

/-- The zero `Aggregator` with the defaults `New` sets before running the
options. -/
def defaultAggregator : Aggregator :=
  { namespaces := [], selector := "", lister := none, webhook := "",
    webhookMethod := "POST", outputDir := ".", hasLogger := false, hasFs := false }

/-- The options loop of `New`: each function runs in order and its error is
wrapped and returned at once. -/
def applyOptions (a : Aggregator) (opts : List OptionsFunc) : Except String Aggregator :=
  match opts with
  | [] => .ok a
  | f :: rest =>
    match f a with
    | .error e => .error (wrapErr "failed to run options function" e)
    | .ok a' => applyOptions a' rest

/-- `New`: run the options over the defaults, fill in a logger (creating one
is modelled as succeeding), reject a missing lister, default the namespace
list to the single empty string, and fill in the OS file system. -/
def New (opts : List OptionsFunc) : Except String Aggregator :=
  match applyOptions defaultAggregator opts with
  | .error e => .error e
  | .ok a =>
    let a := if a.hasLogger then a else { a with hasLogger := true }
    match a.lister with
    | none => .error "no config map lister was set"
    | some _ =>
      let a := if a.namespaces = [] then { a with namespaces := [""] } else a
      let a := if a.hasFs then a else { a with hasFs := true }
      .ok a

/-- `SetNamespaces`. -/
def SetNamespaces (nss : List String) : OptionsFunc :=
  fun a => .ok { a with namespaces := nss }

/-- `SetLabelSelector` (the TODO validation in the source never runs). -/
def SetLabelSelector (s : String) : OptionsFunc :=
  fun a => .ok { a with selector := s }

/-- `SetConfigMapLister`. -/
def SetConfigMapLister (l : ListerFun) : OptionsFunc :=
  fun a => .ok { a with lister := some l }

/-- `SetOutputDir`. -/
def SetOutputDir (dir : String) : OptionsFunc :=
  fun a => .ok { a with outputDir := dir }

/-! ## Association-list lemmas -/

theorem mapLookup_mapInsert (m : List (String × String)) (a b k : String) :
    mapLookup (mapInsert m a b) k = if a = k then some b else mapLookup m k := by
  induction m with
  | nil => simp [mapInsert, mapLookup]
  | cons hd tl ih =>
    obtain ⟨k', v'⟩ := hd
    by_cases h1 : k' = a
    · subst h1
      by_cases h2 : k' = k
      · subst h2; simp [mapInsert, mapLookup]
      · simp [mapInsert, mapLookup, h2]
    · by_cases h2 : k' = k
      · subst h2
        have : ¬ a = k' := fun hh => h1 hh.symm
        simp [mapInsert, mapLookup, h1, this]
      · simp [mapInsert, mapLookup, h1, h2, ih]

theorem mapLookup_eq_none_iff (m : List (String × String)) (k : String) :
    mapLookup m k = none ↔ k ∉ m.map Prod.fst := by
  induction m with
  | nil => simp [mapLookup]
  | cons hd tl ih =>
    obtain ⟨k', v'⟩ := hd
    by_cases h : k' = k
    · subst h; simp [mapLookup]
    · have h2 : ¬ k = k' := fun hh => h hh.symm
      simp [mapLookup, h, h2, ih]

theorem mapLookup_eq_some_iff_mem {m : List (String × String)} (h : keysNodup m)
    {k v : String} : mapLookup m k = some v ↔ (k, v) ∈ m := by
  induction m with
  | nil => simp [mapLookup]
  | cons hd tl ih =>
    obtain ⟨k', v'⟩ := hd
    obtain ⟨hni, hnd⟩ : k' ∉ tl.map Prod.fst ∧ keysNodup tl := by
      simpa [keysNodup] using h
    by_cases hk : k' = k
    · subst hk
      constructor
      · intro hv
        have hv' : v' = v := by simpa [mapLookup] using hv
        subst hv'
        exact List.mem_cons_self _ _
      · intro hmem
        rcases List.mem_cons.mp hmem with heq2 | hmem2
        · have hv : v = v' := congrArg Prod.snd heq2
          subst hv
          simp [mapLookup]
        · exact absurd (List.mem_map_of_mem Prod.fst hmem2) hni
    · constructor
      · intro hv
        have hv' : mapLookup tl k = some v := by simpa [mapLookup, hk] using hv
        exact List.mem_cons_of_mem _ ((ih hnd).1 hv')
      · intro hmem
        rcases List.mem_cons.mp hmem with heq2 | hmem2
        · exact absurd (congrArg Prod.fst heq2).symm hk
        · simpa [mapLookup, hk] using (ih hnd).2 hmem2

theorem keysNodup_of_perm {m1 m2 : List (String × String)} (p : m1.Perm m2)
    (h : keysNodup m1) : keysNodup m2 :=
  (p.map Prod.fst).nodup h

theorem mapLookup_eq_of_perm {m1 m2 : List (String × String)} (h1 : keysNodup m1)
    (p : m1.Perm m2) (k : String) : mapLookup m1 k = mapLookup m2 k := by
  have h2 : keysNodup m2 := keysNodup_of_perm p h1
  cases hv : mapLookup m1 k with
  | none =>
    rw [mapLookup_eq_none_iff] at hv
    have : k ∉ m2.map Prod.fst := fun hmem => hv (((p.map Prod.fst).mem_iff).2 hmem)
    exact ((mapLookup_eq_none_iff m2 k).2 this).symm
  | some v =>
    have hmem : (k, v) ∈ m2 := p.mem_iff.1 ((mapLookup_eq_some_iff_mem h1).1 hv)
    exact ((mapLookup_eq_some_iff_mem h2).2 hmem).symm

theorem perm_of_mapLookup_eq {m1 m2 : List (String × String)} (h1 : keysNodup m1)
    (h2 : keysNodup m2) (he : ∀ k, mapLookup m1 k = mapLookup m2 k) : m1.Perm m2 := by
  have d1 : m1.Nodup := List.Nodup.of_map Prod.fst h1
  have d2 : m2.Nodup := List.Nodup.of_map Prod.fst h2
  rw [List.perm_ext_iff_of_nodup d1 d2]
  rintro ⟨k, v⟩
  rw [← mapLookup_eq_some_iff_mem h1, ← mapLookup_eq_some_iff_mem h2, he k]

theorem mapLookup_foldl_insert (src : List (String × String)) (h : keysNodup src)
    (tgt : List (String × String)) (k : String) :
    mapLookup (src.foldl (fun acc kv => mapInsert acc kv.1 kv.2) tgt) k =
      (match mapLookup src k with
       | some v => some v
       | none => mapLookup tgt k) := by
  induction src generalizing tgt with
  | nil => simp [mapLookup]
  | cons hd tl ih =>
    obtain ⟨hni, hnd⟩ : hd.1 ∉ tl.map Prod.fst ∧ keysNodup tl := by
      simpa [keysNodup] using h
    rw [List.foldl_cons, ih hnd]
    by_cases hk : hd.1 = k
    · have htl : mapLookup tl k = none := by
        rw [mapLookup_eq_none_iff]; rw [hk] at hni; exact hni
      rw [htl]
      simp [mapLookup, mapLookup_mapInsert, hk]
    · cases htl : mapLookup tl k with
      | none => simp [mapLookup, mapLookup_mapInsert, hk, htl]
      | some v => simp [mapLookup, hk, htl]

/-! ## Canonical serialization lemmas -/

instance : IsTrans (String × String) entryLe := by
  constructor
  intro p q r hpq hqr
  unfold entryLe at *
  rcases hpq with h1 | ⟨he1, h1⟩
  · rcases hqr with h2 | ⟨he2, h2⟩
    · exact Or.inl (lt_trans h1 h2)
    · exact Or.inl (he2 ▸ h1)
  · rcases hqr with h2 | ⟨he2, h2⟩
    · exact Or.inl (he1 ▸ h2)
    · exact Or.inr ⟨he1.trans he2, le_trans h1 h2⟩

instance : IsTotal (String × String) entryLe := by
  constructor
  intro p q
  unfold entryLe
  rcases lt_trichotomy p.1 q.1 with h | h | h
  · exact Or.inl (Or.inl h)
  · rcases le_total p.2 q.2 with h2 | h2
    · exact Or.inl (Or.inr ⟨h, h2⟩)
    · exact Or.inr (Or.inr ⟨h.symm, h2⟩)
  · exact Or.inr (Or.inl h)

instance : IsAntisymm (String × String) entryLe := by
  constructor
  intro p q hpq hqp
  unfold entryLe at *
  rcases hpq with h1 | ⟨he1, h1⟩
  · rcases hqp with h2 | ⟨he2, h2⟩
    · exact absurd h2 (lt_asymm h1)
    · exact absurd h1 (he2 ▸ lt_irrefl q.1)
  · rcases hqp with h2 | ⟨he2, h2⟩
    · exact absurd h2 (he1 ▸ lt_irrefl p.1)
    · exact Prod.ext he1 (le_antisymm h1 h2)

theorem canonicalData_perm (d : List (String × String)) : (canonicalData d).Perm d :=
  List.perm_insertionSort entryLe d

theorem canonicalData_eq_iff (d1 d2 : List (String × String)) :
    canonicalData d1 = canonicalData d2 ↔ d1.Perm d2 := by
  constructor
  · intro h
    exact (canonicalData_perm d1).symm.trans (h ▸ canonicalData_perm d2)
  · intro p
    exact List.eq_of_perm_of_sorted
      ((canonicalData_perm d1).trans (p.trans (canonicalData_perm d2).symm))
      (List.sorted_insertionSort entryLe d1) (List.sorted_insertionSort entryLe d2)

theorem compareConfigMaps_eq_true_iff (a b : ConfigMap) :
    compareConfigMaps a b = true ↔ a.data.Perm b.data := by
  simp [compareConfigMaps, hashConfigMap, canonicalData_eq_iff]

/-! ## Resource-mode theorems -/

/-- C7: the content comparison is a function of the data mappings as finite
maps only.  Any two resources whose data mappings are equal as key-to-value
functions (whatever the insertion or iteration order of the underlying
association lists) compare as equal; determinism holds because
`compareConfigMaps` is a pure function of its arguments. -/
theorem compare_is_map_function (cm1 cm2 : ConfigMap)
    (h1 : keysNodup cm1.data) (h2 : keysNodup cm2.data)
    (h : ∀ k, mapLookup cm1.data k = mapLookup cm2.data k) :
    compareConfigMaps cm1 cm2 = true :=
  (compareConfigMaps_eq_true_iff cm1 cm2).2 (perm_of_mapLookup_eq h1 h2 h)

/-- Witness for C7 at two concrete resources whose data lists are reversed
copies of each other. -/
theorem compare_is_map_function_witness :
    compareConfigMaps
      ⟨⟨"t", "d", [], [], ""⟩, [("a", "1"), ("b", "2")]⟩
      ⟨⟨"t", "d", [], [], ""⟩, [("b", "2"), ("a", "1")]⟩ = true := by
  apply compare_is_map_function
  · decide
  · decide
  · intro k
    by_cases ha : "a" = k
    · subst ha; decide
    · by_cases hb : "b" = k
      · subst hb; decide
      · simp [mapLookup, ha, hb]

/-- C3: the three upsert branches.  Destination absent: `create` is called
with the candidate as passed, and no update happens.  Destination present
with an identical data mapping: no call at all.  Destination present with a
differing data mapping: one `update` with the merged candidate, which
carries the existing version token verbatim, the candidate's own data, and
labels/annotations where every key present on the existing resource takes
the existing value while candidate-only keys keep the candidate value. -/
theorem upsert_branches (tns tname : String) (existing cm : ConfigMap) :
    upsertConfigMap .notExist tns tname cm = ([.create cm], none) ∧
    ((∀ k, mapLookup existing.data k = mapLookup cm.data k) →
      keysNodup existing.data → keysNodup cm.data →
      upsertConfigMap (.found existing) tns tname cm = ([], none)) ∧
    ((¬ ∀ k, mapLookup existing.data k = mapLookup cm.data k) →
      keysNodup existing.data →
      upsertConfigMap (.found existing) tns tname cm =
        ([.update (mergeFromExisting existing cm)], none) ∧
      (mergeFromExisting existing cm).metadata.resourceVersion =
        existing.metadata.resourceVersion ∧
      (mergeFromExisting existing cm).data = cm.data ∧
      (keysNodup existing.metadata.annotations → ∀ k,
        mapLookup (mergeFromExisting existing cm).metadata.annotations k =
          (match mapLookup existing.metadata.annotations k with
           | some v => some v
           | none => mapLookup cm.metadata.annotations k)) ∧
      (keysNodup existing.metadata.labels → ∀ k,
        mapLookup (mergeFromExisting existing cm).metadata.labels k =
          (match mapLookup existing.metadata.labels k with
           | some v => some v
           | none => mapLookup cm.metadata.labels k))) := by
  refine ⟨rfl, ?_, ?_⟩
  · intro he h1 h2
    have htrue : compareConfigMaps existing (mergeFromExisting existing cm) = true := by
      rw [compareConfigMaps_eq_true_iff]
      exact perm_of_mapLookup_eq h1 h2 he
    simp [upsertConfigMap, htrue]
  · intro hne h1
    have hfalse : compareConfigMaps existing (mergeFromExisting existing cm) = false := by
      cases hcb : compareConfigMaps existing (mergeFromExisting existing cm) with
      | false => rfl
      | true =>
        exfalso
        have hperm := (compareConfigMaps_eq_true_iff _ _).1 hcb
        exact hne (fun k => mapLookup_eq_of_perm h1 hperm k)
    refine ⟨by simp [upsertConfigMap, hfalse], rfl, rfl, ?_, ?_⟩
    · intro hann k
      exact mapLookup_foldl_insert existing.metadata.annotations hann
        cm.metadata.annotations k
    · intro hlab k
      exact mapLookup_foldl_insert existing.metadata.labels hlab
        cm.metadata.labels k

/-- Witness for C3: the three branches at concrete resources — absent
destination, identical data, differing data. -/
theorem upsert_branches_witness :
    upsertConfigMap .notExist "d" "t" ⟨⟨"t", "d", [], [], ""⟩, [("a", "1")]⟩ =
      ([.create ⟨⟨"t", "d", [], [], ""⟩, [("a", "1")]⟩], none) ∧
    upsertConfigMap (.found ⟨⟨"t", "d", [], [], "7"⟩, [("a", "1")]⟩) "d" "t"
      ⟨⟨"t", "d", [], [], ""⟩, [("a", "1")]⟩ = ([], none) ∧
    upsertConfigMap (.found ⟨⟨"t", "d", [], [], "7"⟩, [("a", "1")]⟩) "d" "t"
      ⟨⟨"t", "d", [], [], ""⟩, [("a", "2")]⟩ =
      ([.update (mergeFromExisting ⟨⟨"t", "d", [], [], "7"⟩, [("a", "1")]⟩
        ⟨⟨"t", "d", [], [], ""⟩, [("a", "2")]⟩)], none) := by
  refine ⟨(upsert_branches "d" "t" ⟨⟨"t", "d", [], [], "7"⟩, [("a", "1")]⟩
      ⟨⟨"t", "d", [], [], ""⟩, [("a", "1")]⟩).1, ?_, ?_⟩
  · exact (upsert_branches "d" "t" ⟨⟨"t", "d", [], [], "7"⟩, [("a", "1")]⟩
      ⟨⟨"t", "d", [], [], ""⟩, [("a", "1")]⟩).2.1 (fun _ => rfl) (by decide) (by decide)
  · exact ((upsert_branches "d" "t" ⟨⟨"t", "d", [], [], "7"⟩, [("a", "1")]⟩
      ⟨⟨"t", "d", [], [], ""⟩, [("a", "2")]⟩).2.2
      (fun hall => absurd (hall "a") (by decide)) (by decide)).1

/-! ## Composite-key lemmas -/

theorem string_eq_of_data {a b : String} (h : a.data = b.data) : a = b := by
  cases a with
  | mk d1 =>
    cases b with
    | mk d2 =>
      have hd : d1 = d2 := h
      rw [hd]

theorem append_underscore_inj (a1 : List Char) :
    ∀ (a2 r1 r2 : List Char), '_' ∉ a1 → '_' ∉ a2 →
      a1 ++ '_' :: r1 = a2 ++ '_' :: r2 → a1 = a2 ∧ r1 = r2 := by
  induction a1 with
  | nil =>
    intro a2 r1 r2 h1 h2 heq
    cases a2 with
    | nil => simpa using heq
    | cons c t =>
      exfalso
      simp only [List.nil_append, List.cons_append, List.cons.injEq] at heq
      exact h2 (heq.1 ▸ List.mem_cons_self c t)
  | cons c t ih =>
    intro a2 r1 r2 h1 h2 heq
    cases a2 with
    | nil =>
      exfalso
      simp only [List.nil_append, List.cons_append, List.cons.injEq] at heq
      exact h1 (heq.1 ▸ List.mem_cons_self c t)
    | cons d s =>
      simp only [List.cons_append, List.cons.injEq] at heq
      obtain ⟨hcd, htail⟩ := heq
      have h1' : '_' ∉ t := fun hm => h1 (List.mem_cons_of_mem c hm)
      have h2' : '_' ∉ s := fun hm => h2 (List.mem_cons_of_mem d hm)
      obtain ⟨hts, hr⟩ := ih s r1 r2 h1' h2' htail
      exact ⟨by rw [hcd, hts], hr⟩

theorem aggregateKey_data (ns n k : String) :
    (aggregateKey ns n k).data = ns.data ++ '_' :: (n.data ++ '_' :: k.data) := by
  have hu : ("_" : String).data = ['_'] := rfl
  simp [aggregateKey, String.data_append, hu]

theorem aggregateKey_inj {ns1 n1 k1 ns2 n2 k2 : String}
    (hns1 : '_' ∉ ns1.data) (hn1 : '_' ∉ n1.data)
    (hns2 : '_' ∉ ns2.data) (hn2 : '_' ∉ n2.data)
    (heq : aggregateKey ns1 n1 k1 = aggregateKey ns2 n2 k2) :
    ns1 = ns2 ∧ n1 = n2 ∧ k1 = k2 := by
  have hd : (aggregateKey ns1 n1 k1).data = (aggregateKey ns2 n2 k2).data := by rw [heq]
  rw [aggregateKey_data, aggregateKey_data] at hd
  obtain ⟨h1, h2⟩ := append_underscore_inj ns1.data ns2.data _ _ hns1 hns2 hd
  obtain ⟨h3, h4⟩ := append_underscore_inj n1.data n2.data _ _ hn1 hn2 h2
  exact ⟨string_eq_of_data h1, string_eq_of_data h3, string_eq_of_data h4⟩

/-- C8: the merger's collision behaviour and key uniqueness.  First: when
two source triples — neither from the target identity — collide onto one
composite key, `createConfigMap` still succeeds (no error) and the aggregate
holds the value of the later-folded triple, overwriting the earlier.
Second: as long as the partitions, collection names and keys involved do not
contain the `_` delimiter, two distinct (partition, name, key) triples
always produce distinct composite keys. -/
theorem merge_collision_and_key_uniqueness :
    (∀ tns tname sel ns1 n1 k1 v1 ns2 n2 k2 v2 : String,
      ¬ (ns1 = tns ∧ n1 = tname) → ¬ (ns2 = tns ∧ n2 = tname) →
      aggregateKey ns1 n1 k1 = aggregateKey ns2 n2 k2 →
      createConfigMap ⟨tns, tname, sel, ["x"]⟩
          (fun _ _ => .ok [⟨ns1, n1, [(k1, v1)]⟩, ⟨ns2, n2, [(k2, v2)]⟩]) =
        .ok { metadata := { name := tname, ns := tns, labels := [],
                            annotations := [("configmap-aggregator", "target")],
                            resourceVersion := "" },
              data := [(aggregateKey ns2 n2 k2, v2)] }) ∧
    (∀ ns1 n1 k1 ns2 n2 k2 : String,
      '_' ∉ ns1.data → '_' ∉ n1.data → '_' ∉ k1.data →
      '_' ∉ ns2.data → '_' ∉ n2.data → '_' ∉ k2.data →
      ¬ (ns1 = ns2 ∧ n1 = n2 ∧ k1 = k2) →
      aggregateKey ns1 n1 k1 ≠ aggregateKey ns2 n2 k2) := by
  constructor
  · intro tns tname sel ns1 n1 k1 v1 ns2 n2 k2 v2 h1 h2 hcol
    have hins : mapInsert (mapInsert [] (aggregateKey ns1 n1 k1) v1)
        (aggregateKey ns2 n2 k2) v2 = [(aggregateKey ns2 n2 k2, v2)] := by
      rw [← hcol]
      simp [mapInsert]
    simp only [createConfigMap, buildData, foldItems, foldEntries, newConfigMap,
      if_neg h1, if_neg h2]
    rw [hins]
    rfl
  · intro ns1 n1 k1 ns2 n2 k2 hns1 hn1 _ hns2 hn2 _ hne heq
    exact hne (aggregateKey_inj hns1 hn1 hns2 hn2 heq)

/-- Witness for C8: a concrete delimiter collision — `(a, b_c)` with key `d`
versus `(a_b, c)` with key `d` both map to `a_b_c_d`; the later value `2`
wins and no error is raised.  And concrete distinct delimiter-free triples
yield distinct keys. -/
theorem merge_collision_and_key_uniqueness_witness :
    createConfigMap ⟨"tns", "tname", "", ["x"]⟩
        (fun _ _ => .ok [⟨"a", "b_c", [("d", "1")]⟩, ⟨"a_b", "c", [("d", "2")]⟩]) =
      .ok { metadata := { name := "tname", ns := "tns", labels := [],
                          annotations := [("configmap-aggregator", "target")],
                          resourceVersion := "" },
            data := [(aggregateKey "a_b" "c" "d", "2")] } ∧
    aggregateKey "a" "b" "c" ≠ aggregateKey "a" "b" "x" := by
  constructor
  · exact merge_collision_and_key_uniqueness.1 "tns" "tname" "" "a" "b_c" "d" "1"
      "a_b" "c" "d" "2" (by decide) (by decide) (by decide)
  · exact merge_collision_and_key_uniqueness.2 "a" "b" "c" "a" "b" "x"
      (by decide) (by decide) (by decide) (by decide) (by decide) (by decide)
      (by decide)

/-! ## Target exclusion -/

theorem foldItems_filter (tns tname : String) (data : List (String × String))
    (items : List CMItem) :
    foldItems tns tname data items =
      foldItems tns tname data
        (items.filter (fun cm => decide (¬ (cm.ns = tns ∧ cm.name = tname)))) := by
  induction items generalizing data with
  | nil => rfl
  | cons cm rest ih =>
    by_cases h : cm.ns = tns ∧ cm.name = tname
    · simp [foldItems, h, List.filter, ih]
    · simp [foldItems, h, List.filter, ih]

theorem buildData_filter (c : Controller) (get : ListerFun) (nss : List String)
    (data : List (String × String)) :
    buildData c get nss data =
      buildData c
        (fun n sel => (get n sel).map (fun items => items.filter
          (fun cm => decide (¬ (cm.ns = c.targetNamespace ∧ cm.name = c.targetName)))))
        nss data := by
  induction nss generalizing data with
  | nil => rfl
  | cons n rest ih =>
    simp only [buildData]
    cases hg : get n c.selector with
    | error e => simp [Except.map]
    | ok items =>
      simp only [Except.map]
      rw [← foldItems_filter]
      exact ih _

/-- C9: a collection whose identity equals the target identity contributes
nothing to the aggregate.  The config map built by a cycle equals the one
built from the same snapshot with every target-identity collection
removed — none of the excluded collection's keys or values enter the
aggregate. -/
theorem createConfigMap_excludes_target (c : Controller) (get : ListerFun) :
    createConfigMap c get =
      createConfigMap c
        (fun n sel => (get n sel).map (fun items => items.filter
          (fun cm => decide (¬ (cm.ns = c.targetNamespace ∧ cm.name = c.targetName))))) := by
  unfold createConfigMap
  rw [← buildData_filter]

/-! ## `New` theorems -/

/-- C10: `New` without a lister fails; `New` with a lister and successful
options succeeds, and when no namespace list was configured the partition
list defaults to the single empty-string (search-all) partition, keeping the
configured lister. -/
theorem New_requires_lister_and_defaults (opts : List OptionsFunc) (a : Aggregator) :
    (applyOptions defaultAggregator opts = .ok a → a.lister = none →
      New opts = .error "no config map lister was set") ∧
    (applyOptions defaultAggregator opts = .ok a → a.lister.isSome →
      a.namespaces = [] →
      ∃ b, New opts = .ok b ∧ b.namespaces = [""] ∧ b.lister = a.lister) := by
  constructor
  · intro hap hl
    unfold New
    rw [hap]
    by_cases hlog : a.hasLogger
    · simp [hlog, hl]
    · simp [hlog, hl]
  · intro hap hl hns
    obtain ⟨f, hf⟩ := Option.isSome_iff_exists.mp hl
    unfold New
    rw [hap]
    by_cases hlog : a.hasLogger
    · by_cases hfs : a.hasFs
      · exact ⟨{ a with namespaces := [""] },
          by simp [hlog, hf, hns, hfs], rfl, rfl⟩
      · exact ⟨{ a with namespaces := [""], hasFs := true },
          by simp [hlog, hf, hns, hfs], rfl, rfl⟩
    · by_cases hfs : a.hasFs
      · exact ⟨{ a with namespaces := [""], hasLogger := true },
          by simp [hlog, hf, hns, hfs], rfl, rfl⟩
      · exact ⟨{ a with namespaces := [""], hasLogger := true, hasFs := true },
          by simp [hlog, hf, hns, hfs], rfl, rfl⟩

/-- Witness for C10: `New` with no options fails for lack of a lister, and
`New` with only a lister option yields an aggregator whose partition list is
the single empty string. -/
theorem New_requires_lister_and_defaults_witness :
    New [] = .error "no config map lister was set" ∧
    ∃ b, New [SetConfigMapLister (fun _ _ => .ok [])] = .ok b ∧
      b.namespaces = [""] ∧
      b.lister = some (fun _ _ => .ok []) := by
  constructor
  · exact (New_requires_lister_and_defaults [] defaultAggregator).1 rfl rfl
  · exact (New_requires_lister_and_defaults [SetConfigMapLister (fun _ _ => .ok [])]
      { defaultAggregator with lister := some (fun _ _ => .ok []) }).2 rfl rfl rfl
